import Mathlib

/-!
Verification of the torii-mcp server (src/src/main.rs) against its
natural-language specification.

The first half embeds the stdio MCP tool: a `SqlHandler` holding the remote
SQL endpoint URL, whose `handle_method` dispatches `tools/list` and
`tools/call` (tools `query` and `schema`) and turns them into HTTP POSTs
against the endpoint.  JSON values are modelled by an inductive `Json`;
the HTTP layer is an oracle `String → Json → Except String Json`
(url and body in, decoded response or transport/status/decode error out);
Rust panics (`unwrap`, `Map` indexing on a missing key) are modelled by the
`Outcome.panicked` constructor.

The second half models the bidirectional stream relay described by the
specification (its code is not part of src/); those definitions are
modelled from the spec and marked as such.
-/

/-- JSON values, mirroring `serde_json::Value`.  Numbers are modelled as
integers: no claim depends on float semantics. -/
inductive Json where
  | null
  | bool (b : Bool)
  | num (n : Int)
  | str (s : String)
  | arr (elems : List Json)
  | obj (fields : List (String × Json))

/-- First-match lookup in an object's field list (a `serde_json::Map` has
unique keys, so first-match agrees with map lookup). -/
def lookupField : List (String × Json) → String → Option Json
  | [], _ => none
  | (k, v) :: rest, key => if k = key then some v else lookupField rest key

/-- Indexing a `serde_json::Value` with a string key (`params["name"]`):
yields the field of an object, and `Null` for a missing key or a
non-object. -/
def Json.index (j : Json) (key : String) : Json :=
  match j with
  | .obj fields => (lookupField fields key).getD .null
  | _ => .null

/-- Mirror of `Value::as_str`. -/
def Json.asStr : Json → Option String
  | .str s => some s
  | _ => none

/-- Mirror of `Value::as_object` (the field list of the map). -/
def Json.asObj : Json → Option (List (String × Json))
  | .obj fields => some fields
  | _ => none

/-- Mirror of `Value == i` for an integer literal `i`
(`serde_json` compares a number value to the integer; any other variant
compares unequal). -/
def Json.eqInt (j : Json) (i : Int) : Bool :=
  match j with
  | .num n => n == i
  | _ => false

mutual

/-- Serialization of a JSON value to a string.  This abstracts
`serde_json::to_string_pretty` (whitespace and string escaping are not
reproduced); it never fails, matching the infallible `to_string_pretty`
on a `Value`, and no claim depends on the rendered text. -/
def Json.render : Json → String
  | .null => "null"
  | .bool true => "true"
  | .bool false => "false"
  | .num n => toString n
  | .str s => "\"" ++ s ++ "\""
  | .arr elems => "[" ++ renderElems elems ++ "]"
  | .obj fields => "\x7b" ++ renderFields fields ++ "\x7d"

def renderElems : List Json → String
  | [] => ""
  | [x] => Json.render x
  | x :: rest => Json.render x ++ "," ++ renderElems rest

def renderFields : List (String × Json) → String
  | [] => ""
  | [(k, v)] => "\"" ++ k ++ "\":" ++ Json.render v
  | (k, v) :: rest => "\"" ++ k ++ "\":" ++ Json.render v ++ "," ++ renderFields rest

end

/-- An HTTP POST request issued by the handler: target URL and JSON body. -/
structure HttpRequest where
  url : String
  body : Json

/-- The handler state: only the immutable SQL endpoint URL
(struct `SqlHandler` in main.rs). -/
structure SqlHandler where
  sql_url : String

/-- Result of running `handle_method`: a successful JSON value, an
`Err(Error::Other msg)`, or a Rust panic (process abort). -/
inductive Outcome where
  | ok (v : Json)
  | err (msg : String)
  | panicked (msg : String)

/-- The JSON value returned by the `tools/list` branch of `handle_method`,
transcribed literally. -/
def toolsListValue : Json :=
  .obj [("tools", .arr [
    .obj [
      ("name", .str "query"),
      ("description", .str "Execute a SQL query against the remote database"),
      ("inputSchema", .obj [
        ("type", .str "object"),
        ("properties", .obj [
          ("query", .obj [
            ("type", .str "string"),
            ("description", .str "SQL query to execute")])]),
        ("required", .arr [.str "query"])])],
    .obj [
      ("name", .str "schema"),
      ("description", .str "Retrieve the database schema"),
      ("inputSchema", .obj [
        ("type", .str "object"),
        ("properties", .obj [
          ("table", .obj [
            ("type", .str "string"),
            ("description", .str "Optional table name to get schema for. If omitted, returns schema for all tables.")])])])]])]

/-- Text preceding the table name in the `schema` tool's parameterized SQL
template (the `format!` literal in main.rs, up to and including the opening
single quote; embedded newlines and the 33-space indentation of the Rust
source literal are preserved exactly). -/
def schemaQueryPre : String :=
  "SELECT m.name as table_name, p.* \n                                 FROM sqlite_master m\n                                 JOIN pragma_table_info(m.name) p\n                                 WHERE m.type = 'table' AND m.name = '"

/-- Text following the table name in the `schema` tool's parameterized SQL
template (closing single quote onward). -/
def schemaQueryPost : String :=
  "'\n                                 ORDER BY m.name, p.cid"

/-- The fixed SQL the `schema` tool issues when no table filter is given
(the `String::from` literal in main.rs). -/
def schemaQueryAll : String :=
  "SELECT m.name as table_name, p.* \n                                 FROM sqlite_master m\n                                 JOIN pragma_table_info(m.name) p\n                                 WHERE m.type = 'table'\n                                 ORDER BY m.name, p.cid"

/-- Insert into an object field list, replacing the value if the key is
already present and appending otherwise (key uniqueness of
`serde_json::Map::insert` / `entry().or_insert_with`; ordering of the map
is irrelevant to every claim). -/
def insertField : List (String × Json) → String → Json → List (String × Json)
  | [], key, v => [(key, v)]
  | (k, w) :: rest, key, v =>
    if k = key then (k, v) :: rest else (k, w) :: insertField rest key v

/-- The column description object built for one schema row
(`json!({"type": ..., "nullable": ..., "primary_key": ..., "default": ...})`). -/
def columnValue (rowObj : List (String × Json)) : Json :=
  .obj [
    ("type", ((lookupField rowObj "type").getD .null)),
    ("nullable", .bool (((lookupField rowObj "notnull").getD .null).eqInt 0)),
    ("primary_key", .bool (((lookupField rowObj "pk").getD .null).eqInt 1)),
    ("default", ((lookupField rowObj "dflt_value").getD .null))]

/-- The `for row in response` loop of the `schema` tool: folds the rows
into the `schema` map.  `none` models a Rust panic: `row.as_object().unwrap()`
on a non-object row, `.as_str().unwrap()` on a non-string `table_name` or
`name` field, and `serde_json::Map` indexing (`row["table_name"]`,
`row["name"]`, `row["type"]`, `row["notnull"]`, `row["pk"]`,
`row["dflt_value"]`) on a missing key, all of which abort. -/
def stepRow (schema : List (String × Json)) (row : Json) :
    Option (List (String × Json)) :=
  match row.asObj with
  | none => none
  | some rowObj =>
    match lookupField rowObj "table_name" with
    | none => none
    | some tnVal =>
      match tnVal.asStr with
      | none => none
      | some tableName =>
        match lookupField rowObj "name" with
        | none => none
        | some cnVal =>
          match cnVal.asStr with
          | none => none
          | some columnName =>
            let tableEntry := (lookupField schema tableName).getD
              (.obj [("columns", .obj [])])
            match (tableEntry.index "columns").asObj with
            | some columns =>
              match lookupField rowObj "type", lookupField rowObj "notnull",
                    lookupField rowObj "pk", lookupField rowObj "dflt_value" with
              | some _, some _, some _, some _ =>
                let tableEntryNew : Json :=
                  match tableEntry with
                  | .obj fs => .obj (insertField fs "columns"
                      (.obj (insertField columns columnName (columnValue rowObj))))
                  | other => other
                some (insertField schema tableName tableEntryNew)
              | _, _, _, _ => none
            | none => some (insertField schema tableName tableEntry)

/-- Iteration of `stepRow` over all rows, starting from the empty map. -/
def buildSchema : List Json → List (String × Json) → Option (List (String × Json))
  | [], schema => some schema
  | row :: rest, schema =>
    match stepRow schema row with
    | none => none
    | some schema2 => buildSchema rest schema2

/-- The `{"content":[{"type":"text","text": s}]}` wrapper both tools return. -/
def contentResult (s : String) : Json :=
  .obj [("content", .arr [.obj [("type", .str "text"), ("text", .str s)]])]

/-- Shallow embedding of `SqlHandler::handle_method`.  `http url body` is
the oracle for `CLIENT.post(url).json(body).send().error_for_status().json()`:
`Except.error e` models a send, status or body error with message `e`, and
`Except.ok v` the decoded JSON response.  The result pairs the method
outcome with the list of HTTP requests issued (in order). -/
def handle_method (h : SqlHandler) (http : String → Json → Except String Json)
    (method : String) (params : Option Json) : Outcome × List HttpRequest :=
  if method = "tools/list" then
    (.ok toolsListValue, [])
  else if method = "tools/call" then
    match params with
    | none => (.err "Missing parameters", [])
    | some p =>
      match (p.index "name").asStr with
      | none => (.err "Missing tool name", [])
      | some toolName =>
        match (p.index "arguments").asObj with
        | none => (.err "Missing arguments", [])
        | some arguments =>
          if toolName = "query" then
            match lookupField arguments "query" with
            | none => (.panicked "no entry found for key", [])
            | some qVal =>
              match qVal.asStr with
              | none => (.err "Missing query parameter", [])
              | some query =>
                let req : HttpRequest := ⟨h.sql_url, .obj [("query", .str query)]⟩
                match http req.url req.body with
                | .error e => (.err e, [req])
                | .ok resp => (.ok (contentResult resp.render), [req])
          else if toolName = "schema" then
            let tableFilter := (lookupField arguments "table").bind Json.asStr
            let schemaQuery : String :=
              match tableFilter with
              | some table => schemaQueryPre ++ table ++ schemaQueryPost
              | none => schemaQueryAll
            let req : HttpRequest := ⟨h.sql_url, .obj [("query", .str schemaQuery)]⟩
            match http req.url req.body with
            | .error e => (.err e, [req])
            | .ok resp =>
              match resp with
              | .arr rows =>
                match buildSchema rows [] with
                | some schema => (.ok (contentResult (Json.obj schema).render), [req])
                | none => (.panicked "called unwrap on a None value", [req])
              | _ => (.err "error decoding response body", [req])
          else
            (.err ("Unknown tool: " ++ toolName), [])
  else
    (.err ("Unknown method: " ++ method), [])

/-- One server dispatch: the SDK calls `handle_method(&self, ...)` on a
shared reference, so the handler state it returns to the loop is the
unchanged `h`. -/
def serverStep (h : SqlHandler) (http : String → Json → Except String Json)
    (req : String × Option Json) : (Outcome × List HttpRequest) × SqlHandler :=
  (handle_method h http req.1 req.2, h)

/-- The server's request loop: handles a sequence of requests one after the
other, threading the handler state through, and collects the per-request
results together with the final handler state. -/
def serverRun (h : SqlHandler) (http : String → Json → Except String Json) :
    List (String × Option Json) → List (Outcome × List HttpRequest) × SqlHandler
  | [] => ([], h)
  | req :: rest =>
    let (out, h2) := serverStep h http req
    let (outs, h3) := serverRun h2 http rest
    (out :: outs, h3)

/-- The panic message of `main`'s `.expect(...)` on a missing first
positional argument. -/
def missingUrlMsg : String :=
  "Please provide SQL endpoint URL (e.g., http://localhost:8080/sql)"

/-- Shallow embedding of `main`: `args` is the full OS argument vector
(`args.get? 1` is `std::env::args().nth(1)`), `requests` the sequence of
requests the stdio transport would deliver.  A missing URL argument aborts
startup (`Except.error` with the expect message) before any request is
handled; otherwise the server loop runs over all requests. -/
def mainProgram (args : List String) (http : String → Json → Except String Json)
    (requests : List (String × Option Json)) :
    Except String (List (Outcome × List HttpRequest)) :=
  match args.get? 1 with
  | none => .error missingUrlMsg
  | some url => .ok (serverRun ⟨url⟩ http requests).1

namespace Relay

/-- Modelled from the spec: the Message variant type of the relay core
(spec section 3) — a text payload variant plus transport-level variants
(binary, ping, pong, close) that the relay passes through or ignores and
never produces.  The relay's code is not under src/; every definition in
this namespace is modelled from the specification's words. -/
inductive Message where
  | text (payload : String)
  | binary
  | ping
  | pong
  | close
deriving DecidableEq, Repr

/-- Modelled from the spec: the queue capacity ("32 slots in the reference
sizing"). -/
def queueCapacity : Nat := 32

/-- Modelled from the spec: the relay's shared state.  `input` is the list
of local input lines not yet read (each including its terminator);
`outQueue`/`inQueue` are the bounded FIFO queues (front = head);
`sentMsgs` is the sequence of messages transmitted on the connection's
Sink, in order; `incoming` is the sequence of messages the connection's
Source will still yield; `written` is the bytes written so far to the
local output stream. -/
structure State where
  input : List String
  outQueue : List Message
  sentMsgs : List Message
  incoming : List Message
  inQueue : List Message
  written : String
deriving DecidableEq, Repr

/-- Modelled from the spec: the four concurrently scheduled tasks (spec
section 5): Input Reader, outbound forwarding loop, inbound forwarding
loop, Output Writer. -/
inductive Tick where
  | reader
  | outLoop
  | inLoop
  | writer
deriving DecidableEq, Repr

/-- Modelled from the spec: the payload the Output Writer writes for one
dequeued message — the raw text payload for a text message, nothing for a
non-text variant (silently dropped). -/
def payloadOf : Message → String
  | .text s => s
  | _ => ""

/-- Modelled from the spec: one scheduling step of the named task.  A task
whose guard fails (empty source, full queue, empty queue) suspends: the
state is unchanged.  Input Reader moves one line into the outbound queue
as a text message, suspending while the queue holds `queueCapacity`
messages; the outbound loop dequeues one message and transmits it on the
Sink in FIFO order; the inbound loop moves one message from the Source
into the inbound queue, suspending while full; the Output Writer dequeues
one message and appends its text payload (if any) to the output stream. -/
def step (s : State) : Tick → State
  | .reader =>
    match s.input with
    | [] => s
    | line :: rest =>
      if s.outQueue.length < queueCapacity then
        { s with input := rest, outQueue := s.outQueue ++ [Message.text line] }
      else s
  | .outLoop =>
    match s.outQueue with
    | [] => s
    | m :: rest => { s with outQueue := rest, sentMsgs := s.sentMsgs ++ [m] }
  | .inLoop =>
    match s.incoming with
    | [] => s
    | m :: rest =>
      if s.inQueue.length < queueCapacity then
        { s with incoming := rest, inQueue := s.inQueue ++ [m] }
      else s
  | .writer =>
    match s.inQueue with
    | [] => s
    | m :: rest => { s with inQueue := rest, written := s.written ++ payloadOf m }

/-- Modelled from the spec: running the relay under an explicit schedule
(an arbitrary interleaving of the four tasks). -/
def run (s : State) : List Tick → State
  | [] => s
  | t :: ts => run (step s t) ts

/-- Modelled from the spec: the initial state — local input lines and the
connection's pending inbound messages, with both queues created empty,
nothing sent and nothing written. -/
def initState (lines : List String) (incoming : List Message) : State :=
  ⟨lines, [], [], incoming, [], ""⟩

/-- Modelled from the spec: the outbound direction has reached a terminal
state — local input exhausted and the outbound queue drained. -/
def outboundTerminal (s : State) : Prop :=
  s.input = [] ∧ s.outQueue = []

instance (s : State) : Decidable (outboundTerminal s) := by
  unfold outboundTerminal; infer_instance

/-- Modelled from the spec: the inbound direction has reached a terminal
state — the Source exhausted (peer closed) and the inbound queue drained. -/
def inboundTerminal (s : State) : Prop :=
  s.incoming = [] ∧ s.inQueue = []

instance (s : State) : Decidable (inboundTerminal s) := by
  unfold inboundTerminal; infer_instance

/-- Modelled from the spec: the orchestrator's top-level operation
completes only once both loops have completed — a join of the two
directions, not a race. -/
def relayFinished (s : State) : Prop :=
  outboundTerminal s ∧ inboundTerminal s

instance (s : State) : Decidable (relayFinished s) := by
  unfold relayFinished; infer_instance

/-- Concatenation of the text payloads of a message sequence in order
(what the Output Writer must have written once the sequence is drained). -/
def textConcat : List Message → String
  | [] => ""
  | m :: rest => payloadOf m ++ textConcat rest

/-- Termination measure for scheduling arguments: moving a message between
components costs weight, so every non-suspended step strictly decreases it. -/
def fuel (s : State) : Nat :=
  2 * s.input.length + s.outQueue.length + 2 * s.incoming.length + s.inQueue.length

end Relay

/-- Params of a `tools/call` of the `query` tool with SQL string `q`. -/
def queryCallParams (q : String) : Json :=
  .obj [("name", .str "query"), ("arguments", .obj [("query", .str q)])]

/-- Params of a `tools/call` of the `schema` tool with no table filter. -/
def schemaCallParams : Json :=
  .obj [("name", .str "schema"), ("arguments", .obj [])]

/-- Params of a `tools/call` of the `schema` tool with table filter `t`. -/
def schemaTableCallParams (t : String) : Json :=
  .obj [("name", .str "schema"), ("arguments", .obj [("table", .str t)])]

/-- Names advertised by a `tools/list` response value, in order. -/
def toolNames (j : Json) : List String :=
  match j.index "tools" with
  | .arr tools => tools.filterMap (fun t => (t.index "name").asStr)
  | _ => []

/-- Claim C1 — the server handles exactly the two tools `query` (which
forwards the caller's SQL string as an HTTP POST body to the configured
endpoint) and `schema` (which issues the fixed schema-describing SQL over
the same endpoint), and `tools/list` advertises exactly these two tools. -/
theorem handler_two_tools (h : SqlHandler) (http : String → Json → Except String Json)
    (q : String) (p : Option Json) :
    handle_method h http "tools/list" p = (.ok toolsListValue, [])
    ∧ toolNames toolsListValue = ["query", "schema"]
    ∧ (handle_method h http "tools/call" (some (queryCallParams q))).2
        = [⟨h.sql_url, .obj [("query", .str q)]⟩]
    ∧ (handle_method h http "tools/call" (some schemaCallParams)).2
        = [⟨h.sql_url, .obj [("query", .str schemaQueryAll)]⟩] := by
  refine ⟨rfl, rfl, ?_, ?_⟩
  · cases hr : http h.sql_url (Json.obj [("query", Json.str q)]) with
    | error e =>
      simp [handle_method, queryCallParams, Json.index, lookupField, Json.asStr,
        Json.asObj, hr]
    | ok v =>
      simp [handle_method, queryCallParams, Json.index, lookupField, Json.asStr,
        Json.asObj, hr]
  · cases hr : http h.sql_url (Json.obj [("query", Json.str schemaQueryAll)]) with
    | error e =>
      simp [handle_method, schemaCallParams, Json.index, lookupField, Json.asStr,
        Json.asObj, hr]
    | ok v =>
      cases v <;>
        simp [handle_method, schemaCallParams, Json.index, lookupField, Json.asStr,
          Json.asObj, hr] <;>
        cases buildSchema _ [] <;> simp

/-- Claim C2 — when the positional endpoint-URL argument is absent
(`args.get? 1 = none`), `main` terminates at startup with the descriptive
expect message, before handling any request: the outcome is the same
startup error for every request sequence and contains no handled result. -/
theorem main_requires_url (args : List String)
    (http : String → Json → Except String Json)
    (requests : List (String × Option Json)) (h : args.get? 1 = none) :
    mainProgram args http requests = .error missingUrlMsg := by
  unfold mainProgram
  rw [h]

/-- Witness for C2: a concrete invocation with only the program name in
the argument vector fails at startup with the expect message. -/
theorem main_requires_url_witness :
    (["torii-mcp"] : List String).get? 1 = none
    ∧ mainProgram ["torii-mcp"] (fun _ _ => .ok .null) [("tools/list", none)]
        = .error missingUrlMsg :=
  ⟨rfl, main_requires_url ["torii-mcp"] (fun _ _ => .ok .null) [("tools/list", none)] rfl⟩

/-- Claim C3 — the handler is stateless request/response glue: running any
request sequence leaves the handler state (the immutable endpoint URL)
unchanged, and the result of each request equals the result of handling
that request alone against the initial handler, independently of the
requests handled before it. -/
theorem handler_stateless (h : SqlHandler) (http : String → Json → Except String Json)
    (requests : List (String × Option Json)) :
    (serverRun h http requests).2 = h
    ∧ (serverRun h http requests).1
        = requests.map (fun r => handle_method h http r.1 r.2) := by
  induction requests with
  | nil => exact ⟨rfl, rfl⟩
  | cons req rest ih =>
    refine ⟨?_, ?_⟩
    · simpa [serverRun, serverStep] using ih.1
    · simpa [serverRun, serverStep] using ih.2

/-- Claim C4 — for every string `t` given as the schema tool's `table`
argument, the SQL sent in the HTTP body is exactly the fixed template with
`t` inserted character-for-character between the template's single quotes
(`schemaQueryPre` ends with an opening quote, `schemaQueryPost` begins
with the closing one), with no escaping or validation of `t`. -/
theorem schema_table_inserted_verbatim (h : SqlHandler)
    (http : String → Json → Except String Json) (t : String) :
    (handle_method h http "tools/call" (some (schemaTableCallParams t))).2
      = [⟨h.sql_url, .obj [("query", .str (schemaQueryPre ++ t ++ schemaQueryPost))]⟩]
    ∧ schemaQueryPre.data.getLast? = some (Char.ofNat 39)
    ∧ schemaQueryPost.data.head? = some (Char.ofNat 39) := by
  refine ⟨?_, by decide, by decide⟩
  cases hr : http h.sql_url
      (Json.obj [("query", Json.str (schemaQueryPre ++ t ++ schemaQueryPost))]) with
  | error e =>
    simp [handle_method, schemaTableCallParams, Json.index, lookupField, Json.asStr,
      Json.asObj, hr]
  | ok v =>
    cases v <;>
      simp [handle_method, schemaTableCallParams, Json.index, lookupField, Json.asStr,
        Json.asObj, hr] <;>
      cases buildSchema _ [] <;> simp

/-- Decides whether a schema row is an object whose `table_name` and
`name` fields are strings (the shape the row loop's unwraps require). -/
def rowHasStrFields (row : Json) : Bool :=
  match row.asObj with
  | none => false
  | some rowObj =>
    ((lookupField rowObj "table_name").bind Json.asStr).isSome
      && ((lookupField rowObj "name").bind Json.asStr).isSome

lemma stepRow_some_good (schema schema2 : List (String × Json)) (row : Json)
    (hok : stepRow schema row = some schema2) : rowHasStrFields row = true := by
  unfold stepRow at hok
  split at hok
  · exact absurd hok (by simp)
  next rowObj h1 =>
    split at hok
    · exact absurd hok (by simp)
    next tnVal h2 =>
      split at hok
      · exact absurd hok (by simp)
      next tableName h3 =>
        split at hok
        · exact absurd hok (by simp)
        next cnVal h4 =>
          split at hok
          · exact absurd hok (by simp)
          next columnName h5 =>
            simp [rowHasStrFields, h1, h2, h3, h4, h5]

lemma stepRow_none_of_bad (schema : List (String × Json)) (row : Json)
    (hbad : rowHasStrFields row = false) : stepRow schema row = none := by
  rcases hs : stepRow schema row with _ | schema2
  · rfl
  · exact absurd (stepRow_some_good schema schema2 row hs) (by simp [hbad])

lemma buildSchema_none_of_bad (rows : List Json) :
    ∀ acc, (∃ r ∈ rows, rowHasStrFields r = false) → buildSchema rows acc = none := by
  induction rows with
  | nil => rintro acc ⟨r, hr, _⟩; cases hr
  | cons row rest ih =>
    rintro acc ⟨r, hr, hbad⟩
    unfold buildSchema
    split
    · rfl
    next acc2 hs =>
      rcases List.mem_cons.mp hr with hEq | hMem
      · subst hEq
        exact absurd (stepRow_some_good acc acc2 r hs) (by simp [hbad])
      · exact ih acc2 ⟨r, hMem, hbad⟩

lemma buildSchema_some_all_good (rows : List Json) :
    ∀ acc result, buildSchema rows acc = some result →
      ∀ r ∈ rows, rowHasStrFields r = true := by
  induction rows with
  | nil => intro acc result _ r hr; cases hr
  | cons row rest ih =>
    intro acc result hok r hr
    unfold buildSchema at hok
    split at hok
    · exact absurd hok (by simp)
    next acc2 hs =>
      rcases List.mem_cons.mp hr with hEq | hMem
      · subst hEq; exact stepRow_some_good acc acc2 r hs
      · exact ih acc2 result hok r hMem

/-- Claim C5 — the schema tool's row handling is partial: when the remote
service's response array contains a row that is not an object or whose
`table_name` or `name` field is not a string, the handler panics (process
abort) rather than returning an `Err`; and it returns `Ok` only when every
row is an object with string `table_name` and `name` fields. -/
theorem schema_rows_panic_on_bad_row (url : String) (rows : List Json) :
    ((∃ r ∈ rows, rowHasStrFields r = false) →
      ∃ m, (handle_method ⟨url⟩ (fun _ _ => .ok (Json.arr rows)) "tools/call"
        (some schemaCallParams)).1 = .panicked m)
    ∧ (∀ v, (handle_method ⟨url⟩ (fun _ _ => .ok (Json.arr rows)) "tools/call"
        (some schemaCallParams)).1 = .ok v →
      ∀ r ∈ rows, rowHasStrFields r = true) := by
  rcases hb : buildSchema rows [] with _ | schemaMap
  · constructor
    · intro _
      refine ⟨"called unwrap on a None value", ?_⟩
      simp [handle_method, schemaCallParams, Json.index, lookupField, Json.asStr,
        Json.asObj, hb]
    · intro v hv
      rw [show (handle_method ⟨url⟩ (fun _ _ => .ok (Json.arr rows)) "tools/call"
          (some schemaCallParams)).1 = Outcome.panicked "called unwrap on a None value" by
        simp [handle_method, schemaCallParams, Json.index, lookupField, Json.asStr,
          Json.asObj, hb]] at hv
      exact absurd hv (by simp)
  · constructor
    · rintro ⟨r, hr, hbad⟩
      exact absurd hb (by simp [buildSchema_none_of_bad rows [] ⟨r, hr, hbad⟩])
    · intro v _ r hr
      exact buildSchema_some_all_good rows [] schemaMap hb r hr

/-- Witness for C5: a single non-object row makes the schema tool panic. -/
theorem schema_rows_panic_witness :
    ∃ m, (handle_method ⟨"http://localhost:8080/sql"⟩
      (fun _ _ => .ok (Json.arr [Json.str "oops"])) "tools/call"
      (some schemaCallParams)).1 = .panicked m :=
  (schema_rows_panic_on_bad_row "http://localhost:8080/sql" [Json.str "oops"]).1
    ⟨Json.str "oops", by simp, by simp [rowHasStrFields, Json.asObj]⟩

/-- Characterizes the `tools/call` params the handler rejects before any
tool runs: absent params, a non-string `name`, a non-object `arguments`,
or a tool name that is neither `query` nor `schema`. -/
def callRejected : Option Json → Prop
  | none => True
  | some p =>
    match (p.index "name").asStr with
    | none => True
    | some toolName =>
      match (p.index "arguments").asObj with
      | none => True
      | some _ => toolName ≠ "query" ∧ toolName ≠ "schema"

/-- The error message the handler produces for a rejected request,
matching the order in which `handle_method` checks its inputs. -/
def rejectionMessage (method : String) (params : Option Json) : String :=
  if method = "tools/call" then
    match params with
    | none => "Missing parameters"
    | some p =>
      match (p.index "name").asStr with
      | none => "Missing tool name"
      | some toolName =>
        match (p.index "arguments").asObj with
        | none => "Missing arguments"
        | some _ => "Unknown tool: " ++ toolName
  else "Unknown method: " ++ method

/-- Claim C6 — every method other than `tools/list` and `tools/call`, every
`tools/call` naming a tool other than `query`/`schema`, and every
`tools/call` with missing params, tool name or arguments object yields an
`Err` naming the problem, and no HTTP request is performed. -/
theorem handler_rejects_unknown (h : SqlHandler)
    (http : String → Json → Except String Json) (method : String)
    (params : Option Json)
    (hrej : (method ≠ "tools/list" ∧ method ≠ "tools/call")
      ∨ (method = "tools/call" ∧ callRejected params)) :
    handle_method h http method params
      = (.err (rejectionMessage method params), []) := by
  rcases hrej with ⟨h1, h2⟩ | ⟨h1, h2⟩
  · unfold handle_method rejectionMessage
    rw [if_neg h1, if_neg h2, if_neg h2]
  · subst h1
    cases params with
    | none => rfl
    | some p =>
      rcases hn : (p.index "name").asStr with _ | toolName
      · simp [handle_method, rejectionMessage, hn]
      · rcases ha : (p.index "arguments").asObj with _ | args
        · simp [handle_method, rejectionMessage, hn, ha]
        · have hne : toolName ≠ "query" ∧ toolName ≠ "schema" := by
            unfold callRejected at h2
            simpa [hn, ha] using h2
          simp [handle_method, rejectionMessage, hn, ha, hne.1, hne.2]

/-- Witness for C6: a concrete unknown method is rejected with the
matching message and no HTTP request. -/
theorem handler_rejects_unknown_witness :
    handle_method ⟨"http://localhost:8080/sql"⟩ (fun _ _ => .ok .null)
      "resources/list" none = (.err "Unknown method: resources/list", []) :=
  handler_rejects_unknown ⟨"http://localhost:8080/sql"⟩ (fun _ _ => .ok .null)
    "resources/list" none (Or.inl ⟨by decide, by decide⟩)

namespace Relay

lemma textConcat_append (xs ys : List Message) :
    textConcat (xs ++ ys) = textConcat xs ++ textConcat ys := by
  induction xs with
  | nil => simp [textConcat]
  | cons m rest ih => simp [textConcat, ih, String.append_assoc]

/-- Conservation of the outbound direction under one step: messages sent,
messages queued and lines not yet read always recombine to the original
input, so no step reorders or drops an outbound message. -/
lemma step_outbound_inv (s : State) (t : Tick) :
    (step s t).sentMsgs ++ (step s t).outQueue ++ (step s t).input.map Message.text
      = s.sentMsgs ++ s.outQueue ++ s.input.map Message.text := by
  cases t with
  | reader =>
    rcases hi : s.input with _ | ⟨line, rest⟩
    · simp [step, hi]
    · by_cases hq : s.outQueue.length < queueCapacity
      · simp [step, hi, hq]
      · simp [step, hi, hq]
  | outLoop =>
    rcases hq : s.outQueue with _ | ⟨m, rest⟩
    · simp [step, hq]
    · simp [step, hq]
  | inLoop =>
    rcases hc : s.incoming with _ | ⟨m, rest⟩
    · simp [step, hc]
    · by_cases hq : s.inQueue.length < queueCapacity
      · simp [step, hc, hq]
      · simp [step, hc, hq]
  | writer =>
    rcases hq : s.inQueue with _ | ⟨m, rest⟩
    · simp [step, hq]
    · simp [step, hq]

/-- Conservation of the inbound direction under one step: bytes written,
text queued and text not yet received always recombine to the full inbound
text, so no step drops inbound text. -/
lemma step_inbound_inv (s : State) (t : Tick) :
    (step s t).written ++ textConcat (step s t).inQueue
        ++ textConcat (step s t).incoming
      = s.written ++ textConcat s.inQueue ++ textConcat s.incoming := by
  cases t with
  | reader =>
    rcases hi : s.input with _ | ⟨line, rest⟩
    · simp [step, hi]
    · by_cases hq : s.outQueue.length < queueCapacity
      · simp [step, hi, hq]
      · simp [step, hi, hq]
  | outLoop =>
    rcases hq : s.outQueue with _ | ⟨m, rest⟩
    · simp [step, hq]
    · simp [step, hq]
  | inLoop =>
    rcases hc : s.incoming with _ | ⟨m, rest⟩
    · simp [step, hc]
    · by_cases hq : s.inQueue.length < queueCapacity
      · simp [step, hc, hq, textConcat_append, textConcat, String.append_assoc]
      · simp [step, hc, hq]
  | writer =>
    rcases hq : s.inQueue with _ | ⟨m, rest⟩
    · simp [step, hq]
    · simp [step, hq, textConcat, String.append_assoc]

lemma run_outbound_inv (sched : List Tick) :
    ∀ s : State,
      (run s sched).sentMsgs ++ (run s sched).outQueue
          ++ (run s sched).input.map Message.text
        = s.sentMsgs ++ s.outQueue ++ s.input.map Message.text := by
  induction sched with
  | nil => intro s; rfl
  | cons t ts ih =>
    intro s
    calc (run (step s t) ts).sentMsgs ++ (run (step s t) ts).outQueue
            ++ (run (step s t) ts).input.map Message.text
        = (step s t).sentMsgs ++ (step s t).outQueue
            ++ (step s t).input.map Message.text := ih (step s t)
      _ = s.sentMsgs ++ s.outQueue ++ s.input.map Message.text :=
          step_outbound_inv s t

lemma run_inbound_inv (sched : List Tick) :
    ∀ s : State,
      (run s sched).written ++ textConcat (run s sched).inQueue
          ++ textConcat (run s sched).incoming
        = s.written ++ textConcat s.inQueue ++ textConcat s.incoming := by
  induction sched with
  | nil => intro s; rfl
  | cons t ts ih =>
    intro s
    calc (run (step s t) ts).written ++ textConcat (run (step s t) ts).inQueue
            ++ textConcat (run (step s t) ts).incoming
        = (step s t).written ++ textConcat (step s t).inQueue
            ++ textConcat (step s t).incoming := ih (step s t)
      _ = s.written ++ textConcat s.inQueue ++ textConcat s.incoming :=
          step_inbound_inv s t

end Relay

namespace Relay

/-- One step keeps both queues within capacity: the producers enqueue only
under the `length < queueCapacity` guard and otherwise suspend. -/
lemma step_queues_le (s : State) (t : Tick)
    (h1 : s.outQueue.length ≤ queueCapacity)
    (h2 : s.inQueue.length ≤ queueCapacity) :
    (step s t).outQueue.length ≤ queueCapacity
      ∧ (step s t).inQueue.length ≤ queueCapacity := by
  cases t with
  | reader =>
    rcases hi : s.input with _ | ⟨line, rest⟩
    · simpa [step, hi] using ⟨h1, h2⟩
    · by_cases hq : s.outQueue.length < queueCapacity
      · refine ⟨?_, by simpa [step, hi, hq] using h2⟩
        simp only [step, hi, hq, if_pos, List.length_append, List.length_cons,
          List.length_nil]
        omega
      · exact ⟨by simpa [step, hi, hq] using h1, by simpa [step, hi, hq] using h2⟩
  | outLoop =>
    rcases hq : s.outQueue with _ | ⟨m, rest⟩
    · exact ⟨by simpa [step, hq] using h1, by simpa [step, hq] using h2⟩
    · refine ⟨?_, by simpa [step, hq] using h2⟩
      rw [hq] at h1
      simp only [step, hq, List.length_cons] at h1 ⊢
      omega
  | inLoop =>
    rcases hc : s.incoming with _ | ⟨m, rest⟩
    · simpa [step, hc] using ⟨h1, h2⟩
    · by_cases hq : s.inQueue.length < queueCapacity
      · refine ⟨by simpa [step, hc, hq] using h1, ?_⟩
        simp only [step, hc, hq, if_pos, List.length_append, List.length_cons,
          List.length_nil]
        omega
      · exact ⟨by simpa [step, hc, hq] using h1, by simpa [step, hc, hq] using h2⟩
  | writer =>
    rcases hq : s.inQueue with _ | ⟨m, rest⟩
    · exact ⟨by simpa [step, hq] using h1, by simpa [step, hq] using h2⟩
    · refine ⟨by simpa [step, hq] using h1, ?_⟩
      rw [hq] at h2
      simp only [step, hq, List.length_cons] at h2 ⊢
      omega

/-- Any run from a state with both queues within capacity keeps them
within capacity. -/
lemma run_queues_le (sched : List Tick) :
    ∀ s : State, s.outQueue.length ≤ queueCapacity →
      s.inQueue.length ≤ queueCapacity →
      (run s sched).outQueue.length ≤ queueCapacity
        ∧ (run s sched).inQueue.length ≤ queueCapacity := by
  induction sched with
  | nil => intro s h1 h2; exact ⟨h1, h2⟩
  | cons t ts ih =>
    intro s h1 h2
    obtain ⟨h1s, h2s⟩ := step_queues_le s t h1 h2
    exact ih (step s t) h1s h2s

/-- From any state a schedule exists that drives the relay to the joint
terminal state: repeatedly running whichever task can make progress
strictly decreases `fuel`. -/
lemma finishable : ∀ (n : Nat) (s : State), fuel s ≤ n →
    ∃ sched, relayFinished (run s sched) := by
  intro n
  induction n with
  | zero =>
    intro s hf
    simp only [fuel] at hf
    have h1 : s.input = [] := List.length_eq_zero.mp (by omega)
    have h2 : s.outQueue = [] := List.length_eq_zero.mp (by omega)
    have h3 : s.incoming = [] := List.length_eq_zero.mp (by omega)
    have h4 : s.inQueue = [] := List.length_eq_zero.mp (by omega)
    exact ⟨[], ⟨⟨h1, h2⟩, ⟨h3, h4⟩⟩⟩
  | succ n ih =>
    intro s hf
    rcases hout : s.outQueue with _ | ⟨m, outRest⟩
    · rcases hinq : s.inQueue with _ | ⟨m, inRest⟩
      · rcases hin : s.input with _ | ⟨line, inputRest⟩
        · rcases hinc : s.incoming with _ | ⟨m, incRest⟩
          · exact ⟨[], ⟨⟨hin, hout⟩, ⟨hinc, hinq⟩⟩⟩
          · have hfs : fuel (step s .inLoop) ≤ n := by
              simp only [fuel, hin, hout, hinc, hinq, List.length_cons,
                List.length_nil] at hf
              simp [fuel, step, hin, hout, hinc, hinq, queueCapacity]
              omega
            obtain ⟨sched, hsched⟩ := ih (step s .inLoop) hfs
            exact ⟨.inLoop :: sched, hsched⟩
        · have hfs : fuel (step s .reader) ≤ n := by
            simp only [fuel, hin, hout, List.length_cons, List.length_nil] at hf
            simp [fuel, step, hin, hout, queueCapacity]
            omega
          obtain ⟨sched, hsched⟩ := ih (step s .reader) hfs
          exact ⟨.reader :: sched, hsched⟩
      · have hfs : fuel (step s .writer) ≤ n := by
          simp only [fuel, hinq, List.length_cons] at hf
          simp [fuel, step, hinq]
          omega
        obtain ⟨sched, hsched⟩ := ih (step s .writer) hfs
        exact ⟨.writer :: sched, hsched⟩
    · have hfs : fuel (step s .outLoop) ≤ n := by
        simp only [fuel, hout, List.length_cons] at hf
        simp [fuel, step, hout]
        omega
      obtain ⟨sched, hsched⟩ := ih (step s .outLoop) hfs
      exact ⟨.outLoop :: sched, hsched⟩

/-- From any state the relay can reach the joint terminal state. -/
lemma relay_can_finish (s : State) :
    ∃ sched, relayFinished (run s sched) :=
  finishable (fuel s) s le_rfl

end Relay

/-- Claim C7 (relay modelled from the spec) — whenever the outbound
direction has reached its terminal state, the sequence of messages sent on
the connection equals the local input lines in order, each wrapped
unmodified (terminator included) as a text message, under every
interleaving of the four tasks. -/
theorem relay_outbound_verbatim (lines : List String) (incoming : List Relay.Message)
    (sched : List Relay.Tick)
    (hterm : Relay.outboundTerminal (Relay.run (Relay.initState lines incoming) sched)) :
    (Relay.run (Relay.initState lines incoming) sched).sentMsgs
      = lines.map Relay.Message.text := by
  obtain ⟨hin, hout⟩ := hterm
  have hinv := Relay.run_outbound_inv sched (Relay.initState lines incoming)
  rw [hin, hout] at hinv
  simpa [Relay.initState] using hinv

/-- Witness for C7: a concrete one-line run that drains the outbound
direction sends exactly that line. -/
theorem relay_outbound_verbatim_witness :
    Relay.outboundTerminal
      (Relay.run (Relay.initState ["hello\n"] []) [.reader, .outLoop])
    ∧ (Relay.run (Relay.initState ["hello\n"] []) [.reader, .outLoop]).sentMsgs
        = (["hello\n"] : List String).map Relay.Message.text :=
  ⟨by decide, relay_outbound_verbatim ["hello\n"] [] [.reader, .outLoop] (by decide)⟩

/-- Claim C8 (relay modelled from the spec) — bounded queues never drop:
after any interleaving both queue lengths are within the fixed capacity of
32; every input line is accounted for as sent, queued, or not yet read
(and every inbound text byte as written, queued, or not yet received);
and from every reachable state some continuation schedule drives the relay
to the joint terminal state, making every enqueued message available to
its consumer. -/
theorem relay_queue_bounded_lossless (lines : List String)
    (incoming : List Relay.Message) (sched : List Relay.Tick) :
    (Relay.run (Relay.initState lines incoming) sched).outQueue.length
        ≤ Relay.queueCapacity
    ∧ (Relay.run (Relay.initState lines incoming) sched).inQueue.length
        ≤ Relay.queueCapacity
    ∧ (Relay.run (Relay.initState lines incoming) sched).sentMsgs
        ++ (Relay.run (Relay.initState lines incoming) sched).outQueue
        ++ ((Relay.run (Relay.initState lines incoming) sched).input.map
              Relay.Message.text)
      = lines.map Relay.Message.text
    ∧ (Relay.run (Relay.initState lines incoming) sched).written
        ++ Relay.textConcat (Relay.run (Relay.initState lines incoming) sched).inQueue
        ++ Relay.textConcat (Relay.run (Relay.initState lines incoming) sched).incoming
      = Relay.textConcat incoming
    ∧ ∃ more, Relay.relayFinished
        (Relay.run (Relay.run (Relay.initState lines incoming) sched) more) := by
  obtain ⟨hb1, hb2⟩ := Relay.run_queues_le sched (Relay.initState lines incoming)
    (by simp [Relay.initState]) (by simp [Relay.initState])
  refine ⟨hb1, hb2, ?_, ?_, Relay.relay_can_finish _⟩
  · simpa [Relay.initState] using
      Relay.run_outbound_inv sched (Relay.initState lines incoming)
  · simpa [Relay.initState, Relay.textConcat] using
      Relay.run_inbound_inv sched (Relay.initState lines incoming)

/-- Claim C9 (relay modelled from the spec) — the orchestrator's
completion is a join, not a race: whenever the relay has completed (both
loops terminal), both directions were delivered in full — all input lines
were sent and all inbound text was written, so no still-active direction
was truncated by the other one finishing. -/
theorem relay_join_full_delivery (lines : List String)
    (incoming : List Relay.Message) (sched : List Relay.Tick)
    (hfin : Relay.relayFinished (Relay.run (Relay.initState lines incoming) sched)) :
    (Relay.run (Relay.initState lines incoming) sched).sentMsgs
        = lines.map Relay.Message.text
    ∧ (Relay.run (Relay.initState lines incoming) sched).written
        = Relay.textConcat incoming := by
  obtain ⟨⟨hin, hout⟩, hinc, hinq⟩ := hfin
  constructor
  · have hinv := Relay.run_outbound_inv sched (Relay.initState lines incoming)
    rw [hin, hout] at hinv
    simpa [Relay.initState] using hinv
  · have hinv := Relay.run_inbound_inv sched (Relay.initState lines incoming)
    rw [hinc, hinq] at hinv
    simpa [Relay.initState, Relay.textConcat] using hinv

/-- Witness for C9: a run in which the outbound direction finishes first
still completes only after the inbound message (and the ignored binary
frame) have been drained, delivering both directions in full. -/
theorem relay_join_full_delivery_witness :
    Relay.relayFinished (Relay.run
      (Relay.initState ["hi\n"] [.text "ok\n", .binary])
      [.reader, .outLoop, .inLoop, .writer, .inLoop, .writer])
    ∧ (Relay.run (Relay.initState ["hi\n"] [.text "ok\n", .binary])
        [.reader, .outLoop, .inLoop, .writer, .inLoop, .writer]).sentMsgs
          = (["hi\n"] : List String).map Relay.Message.text
    ∧ (Relay.run (Relay.initState ["hi\n"] [.text "ok\n", .binary])
        [.reader, .outLoop, .inLoop, .writer, .inLoop, .writer]).written
          = Relay.textConcat [.text "ok\n", .binary] :=
  ⟨by decide, relay_join_full_delivery ["hi\n"] [.text "ok\n", .binary]
    [.reader, .outLoop, .inLoop, .writer, .inLoop, .writer] (by decide)⟩
